import Mathlib

/-!
Verification of the meal ranking/filtering engine of `app.py`
(CookUnity meal analysis dashboard).

The relevant pandas operations are embedded as pure Lean functions over
lists of records.  Numeric columns (`rating`, `review_count`, `price`,
`calories`) are modelled as rationals (`ℚ`) so that every computation in
the file is exact and executable; nullable columns are `Option`-valued.
Pandas `str.contains` with a `'|'.join(tags)` pattern is modelled as
"some tag occurs as a substring of the cell", which is its behaviour for
tags free of regex metacharacters (the tag vocabulary of the dataset).
`sort_values(col, ascending=False)` is modelled the way pandas implements
it in `nargsort`: reverse the rows, stably argsort ascending, and reverse
the result; the inner argsort is modelled as a stable sort, which matches
numpy's default `quicksort` on arrays below its 16-element insertion-sort
cutoff (above that cutoff numpy's introsort is not stable — see the doc
comment on `sortValuesDesc`).
-/

/-- `strHasPre t s` : the char list `t` is an initial segment of `s`. -/
def strHasPre : List Char → List Char → Bool
  | [], _ => true
  | _ :: _, [] => false
  | a :: as, b :: bs => a == b && strHasPre as bs

/-- `subInChars t s` : the char list `t` occurs contiguously inside `s`. -/
def subInChars (t : List Char) : List Char → Bool
  | [] => t.isEmpty
  | b :: bs => strHasPre t (b :: bs) || subInChars t bs

/-- `strContainsSub s pat` : the string `pat` occurs as a substring of `s`.
Model of Python `pat in s` / `re.search(re.escape(pat), s)`. -/
def strContainsSub (s pat : String) : Bool :=
  subInChars pat.data s.data

/-- Model of `series.str.contains('|'.join(tags), na=False)` at one cell
(`app.py` lines 93 and 95): a null cell never matches (`na=False`); a
string cell matches when some selected tag occurs as a substring. -/
def seriesStrContains (tags : List String) (s : Option String) : Bool :=
  match s with
  | none => false
  | some str => tags.any (fun t => strContainsSub str t)

/-- Whitespace trim at both ends, the model of Python `str.strip()`:
drop leading whitespace, then drop trailing whitespace. -/
def trimChars (l : List Char) : List Char :=
  ((l.dropWhile Char.isWhitespace).reverse.dropWhile Char.isWhitespace).reverse

/-- Split a char list at a one-character separator, the model of Python
`str.split(sep)`: the empty string yields one empty piece, and every
separator occurrence starts a new piece. -/
def splitChars (sep : Char) : List Char → List (List Char)
  | [] => [[]]
  | c :: cs =>
    if c == sep then [] :: splitChars sep cs
    else
      match splitChars sep cs with
      | [] => [[c]]
      | r :: rs => (c :: r) :: rs

/-- Tag-list parsing as the source performs it (`app.py` lines 77-79,
83-85, 243, 251): split on the delimiter and strip whitespace from each
piece. -/
def parseTags (sep : Char) (s : String) : List String :=
  (splitChars sep s.data).map (fun cs => String.mk (trimChars cs))

/-- One row of `meals.csv` as read by `pd.read_csv` (`app.py` line 28),
before `load_data`'s normalisation: `rating`, `review_count`, `price` and
the text columns may be missing (NaN). -/
structure RawRow where
  name : String
  rating : Option ℚ
  review_count : Option ℚ
  price : Option ℚ
  calories : ℚ
  cuisines : Option String
  specifications : Option String
  image_url : Option String
deriving DecidableEq

/-- One row of the loaded table, after `load_data` (`app.py` lines 27-45):
`rating` and `review_count` are filled, `price` stays nullable. -/
structure MealRecord where
  name : String
  rating : ℚ
  review_count : ℚ
  price : Option ℚ
  calories : ℚ
  cuisines : Option String
  specifications : Option String
  image_url : Option String
deriving DecidableEq

/-- The image-URL rewrite of `app.py` lines 40-43: applied only to string
cells (`isinstance(x, str)`), i.e. mapped over the `Option`. -/
def transform_image (x : Option String) : Option String :=
  x.map (fun s =>
    (s.replace "www.cookunity.com" "cu-media.imgix.net") ++
      "?height=400&width=400&fit=crop&format=webp&quality=90")

/-- `load_data` (`app.py` lines 27-45): fill missing `review_count` and
`rating` with 0 and rewrite image URLs.  The two commented-out lines of
the source (dropping `rating == 0` rows, masking `price < 7` to NA) are
not executed and hence are absent here: `price` passes through unchanged. -/
def load_data (rows : List RawRow) : List MealRecord :=
  rows.map (fun row =>
    { name := row.name
      rating := row.rating.getD 0
      review_count := row.review_count.getD 0
      price := row.price
      calories := row.calories
      cuisines := row.cuisines
      specifications := row.specifications
      image_url := transform_image row.image_url })

/-- The Bayesian score of one row (`app.py` line 52):
`(v * R + m * C) / (v + m)`. -/
def bayesianScore (R v C m : ℚ) : ℚ :=
  (v * R + m * C) / (v + m)

/-- `calculate_bayesian_ratings` (`app.py` lines 49-53): elementwise over
the table. -/
def calculate_bayesian_ratings (df : List MealRecord) (C m : ℚ) : List ℚ :=
  df.map (fun r => bayesianScore r.rating r.review_count C m)

/-- The price mask of `app.py` lines 103-109: null prices always pass,
otherwise the price must lie in the inclusive range. -/
def price_mask (price_range : ℚ × ℚ) (p : Option ℚ) : Bool :=
  match p with
  | none => true
  | some q => decide (price_range.1 ≤ q ∧ q ≤ price_range.2)

/-- `filter_dataframe` (`app.py` lines 89-112).  It is generic in the row
type (pandas applies it both to the plain table and to the table carrying
the `bayesian_avg` column); `getR` projects out the `MealRecord` columns.
Stages exactly as in the source: drop `rating <= 0`; if the cuisine
filter list is non-empty (Python truthiness) keep rows whose `cuisines`
cell matches the joined pattern; same for `specifications`; keep rows
with `calories` in the inclusive range; finally, if the frame is not
empty, apply the null-tolerant price mask. -/
def filter_dataframe {α : Type} (getR : α → MealRecord) (df : List α)
    (cuisine_filter diet_filter : List String)
    (calorie_range price_range : ℚ × ℚ) : List α :=
  let fm1 := df.filter (fun x => decide (0 < (getR x).rating))
  let fm2 := if cuisine_filter.isEmpty then fm1 else
    fm1.filter (fun x => seriesStrContains cuisine_filter (getR x).cuisines)
  let fm3 := if diet_filter.isEmpty then fm2 else
    fm2.filter (fun x => seriesStrContains diet_filter (getR x).specifications)
  let fm4 := fm3.filter (fun x =>
    decide (calorie_range.1 ≤ (getR x).calories ∧ (getR x).calories ≤ calorie_range.2))
  if fm4.isEmpty then fm4
  else fm4.filter (fun x => price_mask price_range (getR x).price)

/-- `df.sort_values(col, ascending=False)` as pandas `nargsort` performs
it: reverse the rows, argsort ascending, reverse the result.  The inner
argsort is modelled as a stable ascending sort (exact for numpy's default
kind on sub-cutoff arrays; numpy's introsort is unstable beyond that). -/
def sortValuesDesc {α : Type} (key : α → ℚ) (l : List α) : List α :=
  (List.insertionSort (fun a b => key a ≤ key b) l.reverse).reverse

/-- A row of the rankings frame after `display_df['bayesian_avg'] = ...`
(`app.py` line 192): the meal columns plus the derived score column. -/
structure Scored where
  meal : MealRecord
  bayesian_avg : ℚ
deriving DecidableEq

/-- The "Meal Rankings" page pipeline (`app.py` lines 189-196):
drop unrated rows for display, attach the Bayesian score column, run
`filter_dataframe`, and sort by `bayesian_avg` descending. -/
def mealRankings (df : List MealRecord) (C m : ℚ)
    (cuisine_filter diet_filter : List String)
    (calorie_range price_range : ℚ × ℚ) : List Scored :=
  let display_df := df.filter (fun r => decide (0 < r.rating))
  let scored := display_df.map (fun r =>
    Scored.mk r (bayesianScore r.rating r.review_count C m))
  let filtered := filter_dataframe Scored.meal scored
    cuisine_filter diet_filter calorie_range price_range
  sortValuesDesc Scored.bayesian_avg filtered

/-- A row of the Statistics-page value frame: meal columns, the
`bayesian_avg` column (line 270) and the `value_score` column (line 309). -/
structure ValueRow where
  meal : MealRecord
  bayesian_avg : ℚ
  value_score : ℚ
deriving DecidableEq

/-- The Statistics-page value ranking (`app.py` lines 270, 278, 309,
330-334): score the FULL table (no unrated-exclusion on this page), keep
rows with non-null `price` (`dropna(subset=['price'])`), attach
`value_score = bayesian_avg / price * 1000`, apply the three interactive
filters, and sort by `value_score` descending. -/
def statsValueRank (df : List MealRecord)
    (C m min_rating max_price max_calories : ℚ) : List ValueRow :=
  let scored := df.map (fun r =>
    Scored.mk r (bayesianScore r.rating r.review_count C m))
  let valid_price_data := scored.filter (fun x => x.meal.price.isSome)
  let vrows := valid_price_data.map (fun x =>
    ValueRow.mk x.meal x.bayesian_avg (x.bayesian_avg / x.meal.price.getD 0 * 1000))
  let filtered := vrows.filter (fun x =>
    decide (min_rating ≤ x.bayesian_avg ∧
      x.meal.price.getD 0 ≤ max_price ∧ x.meal.calories ≤ max_calories))
  sortValuesDesc ValueRow.value_score filtered

/-! ### Concrete records used in the scenario theorems -/

/-- Scenario record `{rating: 4.5, reviews: 10}` of the spec's concrete
Score Engine scenario. -/
def exRec0 : MealRecord := ⟨"rec0", 9/2, 10, none, 500, some "Italian", none, none⟩

/-- Scenario record `{rating: 5.0, reviews: 1}`. -/
def exRec1 : MealRecord := ⟨"rec1", 5, 1, none, 500, none, none, none⟩

/-- Scenario record `{rating: 3.0, reviews: 1000}`. -/
def exRec2 : MealRecord := ⟨"rec2", 3, 1000, none, 500, none, none, none⟩

/-- A record whose single cuisine tag is `"South Asian"`: its parsed tag
set does not contain `"Asian"`, but the raw string contains it. -/
def exRecSouthAsian : MealRecord := ⟨"sa", 4, 10, none, 500, some "South Asian", none, none⟩

/-- An unrated record (`rating = 0`) carrying a price, for the value-rank
exclusion question. -/
def exRecUnrated : MealRecord := ⟨"unrated", 0, 0, some 10, 500, none, none, none⟩

/-- A zero-price record, for the division guard question. -/
def exRecFree : MealRecord := ⟨"free", 4, 10, some 0, 500, none, none, none⟩

/-- A rated record with a null price. -/
def exRecNullPrice : MealRecord := ⟨"nullprice", 4, 10, none, 500, none, none, none⟩

/-- A raw CSV row with missing rating/review count and a price of 5,
below the spec's realism floor of 7. -/
def exRawCheap : RawRow := ⟨"cheap", none, none, some 5, 500, none, none, none⟩

/-! ### Helper lemmas -/

theorem strHasPre_append (t v : List Char) : strHasPre t (t ++ v) = true := by
  induction t with
  | nil => rfl
  | cons a as ih => simp [strHasPre, ih]

theorem subInChars_of_pre {t s : List Char} (h : strHasPre t s = true) :
    subInChars t s = true := by
  cases s with
  | nil =>
    cases t with
    | nil => rfl
    | cons a as => simp [strHasPre] at h
  | cons b bs => simp [subInChars, h]

theorem subInChars_cons {t s : List Char} (c : Char) (h : subInChars t s = true) :
    subInChars t (c :: s) = true := by
  simp [subInChars, h]

theorem subInChars_of_decomp {t s : List Char} (u v : List Char)
    (h : s = u ++ (t ++ v)) : subInChars t s = true := by
  subst h
  induction u with
  | nil => exact subInChars_of_pre (strHasPre_append t v)
  | cons c cs ih => exact subInChars_cons c ih

/-- Every piece produced by `splitChars` occurs contiguously in the input:
the head piece is an initial segment, and every piece has a decomposition
`l = u ++ p ++ v`. -/
theorem splitChars_decomp (sep : Char) :
    ∀ l : List Char, ∃ h t, splitChars sep l = h :: t ∧
      (∃ v, l = h ++ v) ∧ ∀ p ∈ t, ∃ u v, l = u ++ (p ++ v)
  | [] => ⟨[], [], rfl, ⟨[], rfl⟩, by simp⟩
  | c :: cs => by
    rcases splitChars_decomp sep cs with ⟨h, t, heq, ⟨v, hv⟩, hrest⟩
    by_cases hc : c == sep
    · refine ⟨[], splitChars sep cs, by simp [splitChars, hc], ⟨c :: cs, rfl⟩, ?_⟩
      intro p hp
      rw [heq] at hp
      rcases List.mem_cons.mp hp with hph | hp
      · subst hph
        exact ⟨[c], v, by simp [hv]⟩
      · rcases hrest p hp with ⟨u, w, huw⟩
        exact ⟨c :: u, w, by simp [huw]⟩
    · refine ⟨c :: h, t, by simp [splitChars, hc, heq], ⟨v, by simp [hv]⟩, ?_⟩
      intro p hp
      rcases hrest p hp with ⟨u, w, huw⟩
      exact ⟨c :: u, w, by simp [huw]⟩

/-- `trimChars l` occurs contiguously in `l`. -/
theorem trimChars_decomp (l : List Char) : ∃ u v, l = u ++ (trimChars l ++ v) := by
  refine ⟨l.takeWhile Char.isWhitespace,
    ((l.dropWhile Char.isWhitespace).reverse.takeWhile Char.isWhitespace).reverse, ?_⟩
  have h3 : l.dropWhile Char.isWhitespace =
      trimChars l ++
        ((l.dropWhile Char.isWhitespace).reverse.takeWhile Char.isWhitespace).reverse := by
    conv_lhs => rw [← List.reverse_reverse (List.dropWhile Char.isWhitespace l)]
    conv_lhs =>
      rw [← List.takeWhile_append_dropWhile
        (p := Char.isWhitespace) (l := (List.dropWhile Char.isWhitespace l).reverse)]
    rw [List.reverse_append]
    rfl
  conv_lhs => rw [← List.takeWhile_append_dropWhile (p := Char.isWhitespace) (l := l)]
  conv_lhs => rw [h3]

/-- Every parsed tag of a raw tag string occurs in it as a substring:
the `str.contains` test therefore accepts any exactly-matching parsed tag. -/
theorem strContainsSub_of_parsed (sep : Char) (s : String) (t : String)
    (ht : t ∈ parseTags sep s) : strContainsSub s t = true := by
  rcases List.mem_map.mp ht with ⟨p, hp, rfl⟩
  show subInChars (trimChars p) s.data = true
  rcases splitChars_decomp sep s.data with ⟨h, rest, heq, ⟨v, hv⟩, hrest⟩
  rw [heq] at hp
  rcases trimChars_decomp p with ⟨a, b, hab⟩
  rcases List.mem_cons.mp hp with hph | hp
  · refine subInChars_of_decomp a (b ++ v) ?_
    rw [hv, ← hph]
    conv_lhs => rw [hab]
    simp
  · rcases hrest p hp with ⟨u, w, huw⟩
    refine subInChars_of_decomp (u ++ a) (b ++ w) ?_
    rw [huw]
    conv_lhs => rw [hab]
    simp

/-- Membership characterization of `filter_dataframe`: a row survives iff
it passes every stage's predicate.  The final emptiness guard of the
source never changes membership (an empty frame has no members). -/
theorem mem_filter_dataframe {α : Type} (getR : α → MealRecord) (df : List α)
    (cf dfl : List String) (cr pr : ℚ × ℚ) (x : α) :
    x ∈ filter_dataframe getR df cf dfl cr pr ↔
      x ∈ df ∧ 0 < (getR x).rating ∧
      (cf = [] ∨ seriesStrContains cf (getR x).cuisines = true) ∧
      (dfl = [] ∨ seriesStrContains dfl (getR x).specifications = true) ∧
      cr.1 ≤ (getR x).calories ∧ (getR x).calories ≤ cr.2 ∧
      price_mask pr (getR x).price = true := by
  have hguard : ∀ (l : List α) (p : α → Bool),
      (x ∈ if l.isEmpty = true then l else l.filter p) ↔ x ∈ l ∧ p x = true := by
    intro l p
    by_cases h : l.isEmpty = true
    · rw [List.isEmpty_iff] at h
      subst h
      simp
    · simp [h, List.mem_filter]
  simp only [filter_dataframe]
  rw [hguard]
  by_cases hc : cf.isEmpty <;> by_cases hd : dfl.isEmpty <;>
    simp_all [List.mem_filter, decide_eq_true_eq, List.isEmpty_iff] <;> tauto

/-- Sorting does not change membership. -/
theorem mem_sortValuesDesc {α : Type} (key : α → ℚ) (l : List α) (x : α) :
    x ∈ sortValuesDesc key l ↔ x ∈ l := by
  simp [sortValuesDesc]

/-- The output of the descending sort is pairwise descending in the key. -/
theorem pairwise_sortValuesDesc {α : Type} (key : α → ℚ) (l : List α) :
    (sortValuesDesc key l).Pairwise (fun a b => key b ≤ key a) := by
  letI : IsTotal α (fun a b => key a ≤ key b) := ⟨fun a b => le_total (key a) (key b)⟩
  letI : IsTrans α (fun a b => key a ≤ key b) :=
    ⟨fun a b c hab hbc => le_trans hab hbc⟩
  have hs := List.sorted_insertionSort (fun a b => key a ≤ key b) l.reverse
  rw [sortValuesDesc]
  exact List.pairwise_reverse.mpr hs

/-- The descending sort permutes its input. -/
theorem sortValuesDesc_perm {α : Type} (key : α → ℚ) (l : List α) :
    (sortValuesDesc key l).Perm l := by
  rw [sortValuesDesc]
  exact ((List.reverse_perm _).trans
    ((List.perm_insertionSort _ _).trans (List.reverse_perm _)))

/-- Membership characterization of the Statistics-page value ranking. -/
theorem mem_statsValueRank (df : List MealRecord) (C m mr mp mc : ℚ) (y : ValueRow) :
    y ∈ statsValueRank df C m mr mp mc ↔
      (∃ r ∈ df, r.price.isSome = true ∧
        y = ValueRow.mk r (bayesianScore r.rating r.review_count C m)
              (bayesianScore r.rating r.review_count C m / r.price.getD 0 * 1000)) ∧
      mr ≤ y.bayesian_avg ∧ y.meal.price.getD 0 ≤ mp ∧ y.meal.calories ≤ mc := by
  simp only [statsValueRank, mem_sortValuesDesc, List.mem_filter, List.mem_map,
    decide_eq_true_eq]
  constructor
  · rintro ⟨⟨s, ⟨⟨r, hr, rfl⟩, hsome⟩, rfl⟩, h1, h2, h3⟩
    exact ⟨⟨r, hr, hsome, rfl⟩, h1, h2, h3⟩
  · rintro ⟨⟨r, hr, hsome, rfl⟩, h1, h2, h3⟩
    exact ⟨⟨Scored.mk r (bayesianScore r.rating r.review_count C m),
      ⟨⟨r, hr, rfl⟩, hsome⟩, rfl⟩, h1, h2, h3⟩

/-- Membership characterization of the "Meal Rankings" page output. -/
theorem mem_mealRankings (df : List MealRecord) (C m : ℚ)
    (cf dfl : List String) (cr pr : ℚ × ℚ) (y : Scored) :
    y ∈ mealRankings df C m cf dfl cr pr ↔
      (∃ r ∈ df, y = Scored.mk r (bayesianScore r.rating r.review_count C m)) ∧
      0 < y.meal.rating ∧
      (cf = [] ∨ seriesStrContains cf y.meal.cuisines = true) ∧
      (dfl = [] ∨ seriesStrContains dfl y.meal.specifications = true) ∧
      cr.1 ≤ y.meal.calories ∧ y.meal.calories ≤ cr.2 ∧
      price_mask pr y.meal.price = true := by
  simp only [mealRankings, mem_sortValuesDesc, mem_filter_dataframe, List.mem_map,
    List.mem_filter, decide_eq_true_eq]
  constructor
  · rintro ⟨⟨r, ⟨hr, hpos⟩, rfl⟩, h2, h3, h4, h5⟩
    exact ⟨⟨r, hr, rfl⟩, h2, h3, h4, h5⟩
  · rintro ⟨⟨r, hr, rfl⟩, h2, h3, h4, h5⟩
    exact ⟨⟨r, ⟨hr, h2⟩, rfl⟩, h2, h3, h4, h5⟩

/-! ### Claim theorems -/

/-- C1: the Score Engine computes each record's `bayesianScore` as
`(reviewCount * rating + m * C) / (reviewCount + m)`; with zero reviews
the score is exactly the prior `C` for any `m > 0`; and on the records
`[{rating:4.5,reviews:10}, {rating:5.0,reviews:1}, {rating:3.0,reviews:1000}]`
with `C = 4, m = 100` the scores are `89/22, 405/101, 34/11` — each within
`1/1000` of the spec's approximations `4.045, 4.010, 3.091` — and the
descending ranking produced by the pipeline is `[rec0, rec1, rec2]`. -/
theorem C1_score_engine :
    (∀ (df : List MealRecord) (C m : ℚ),
      calculate_bayesian_ratings df C m =
        df.map (fun r => (r.review_count * r.rating + m * C) / (r.review_count + m))) ∧
    (∀ R C m : ℚ, 0 < m → bayesianScore R 0 C m = C) ∧
    (calculate_bayesian_ratings [exRec0, exRec1, exRec2] 4 100 =
        [89/22, 405/101, 34/11] ∧
      |89/22 - (4045/1000 : ℚ)| ≤ 1/1000 ∧
      |405/101 - (4010/1000 : ℚ)| ≤ 1/1000 ∧
      |34/11 - (3091/1000 : ℚ)| ≤ 1/1000) ∧
    mealRankings [exRec0, exRec1, exRec2] 4 100 [] [] (0, 2000) (0, 100) =
      [Scored.mk exRec0 (89/22), Scored.mk exRec1 (405/101), Scored.mk exRec2 (34/11)] := by
  refine ⟨fun df C m => rfl, ?_, ⟨?_, ?_, ?_, ?_⟩, ?_⟩
  · intro R C m hm
    rw [bayesianScore, zero_mul, zero_add, zero_add]
    exact mul_div_cancel_left₀ C (ne_of_gt hm)
  · norm_num [calculate_bayesian_ratings, bayesianScore, exRec0, exRec1, exRec2]
  · rw [abs_le]; constructor <;> norm_num
  · rw [abs_le]; constructor <;> norm_num
  · rw [abs_le]; constructor <;> norm_num
  · norm_num [mealRankings, filter_dataframe, bayesianScore, sortValuesDesc,
      List.insertionSort, List.orderedInsert, seriesStrContains, price_mask,
      exRec0, exRec1, exRec2]

/-- Witness for `C1_score_engine`: at `R = 5, C = 3, m = 100` the
zero-review score equals the prior. -/
theorem C1_score_engine_witness : bayesianScore 5 0 3 100 = 3 :=
  C1_score_engine.2.1 5 3 100 (by norm_num)

/-- C2: for every rating `R`, review count `v ≥ 0`, prior `C ∈ [1,5]` and
weight `m ≥ 1`, the Bayesian score lies between `min R C` and `max R C`
inclusive. -/
theorem C2_score_bounds (R v C m : ℚ) (hv : 0 ≤ v) (hC1 : 1 ≤ C) (hC5 : C ≤ 5)
    (hm : 1 ≤ m) :
    min R C ≤ bayesianScore R v C m ∧ bayesianScore R v C m ≤ max R C := by
  have hs : 0 < v + m := by linarith
  constructor
  · rw [bayesianScore, le_div_iff₀ hs]
    rcases le_total R C with h | h
    · rw [min_eq_left h]
      nlinarith [mul_nonneg (by linarith : (0:ℚ) ≤ m) (by linarith : (0:ℚ) ≤ C - R)]
    · rw [min_eq_right h]
      nlinarith [mul_nonneg hv (by linarith : (0:ℚ) ≤ R - C)]
  · rw [bayesianScore, div_le_iff₀ hs]
    rcases le_total R C with h | h
    · rw [max_eq_right h]
      nlinarith [mul_nonneg hv (by linarith : (0:ℚ) ≤ C - R)]
    · rw [max_eq_left h]
      nlinarith [mul_nonneg (by linarith : (0:ℚ) ≤ m) (by linarith : (0:ℚ) ≤ R - C)]

/-- Witness for `C2_score_bounds` at `R = 2, v = 3, C = 4, m = 1`. -/
theorem C2_score_bounds_witness :
    min 2 4 ≤ bayesianScore 2 3 4 1 ∧ bayesianScore 2 3 4 1 ≤ max 2 4 :=
  C2_score_bounds 2 3 4 1 (by norm_num) (by norm_num) (by norm_num) (by norm_num)

/-- C3 (amended): the Bayesian "Meal Rankings" view excludes every record
with `rating = 0` (both the display frame and `filter_dataframe` drop
them); the Statistics-page value ranking, however, scores the full table
and does not exclude unrated records (see the counterexample). -/
theorem C3_rating_rank_excludes_unrated (df : List MealRecord) (C m : ℚ)
    (cf dfl : List String) (cr pr : ℚ × ℚ) (y : Scored)
    (hy : y ∈ mealRankings df C m cf dfl cr pr) : 0 < y.meal.rating :=
  ((mem_mealRankings df C m cf dfl cr pr y).mp hy).2.1

/-- Counterexample to C3 as stated: the Statistics-page value ranking is a
ranking view that does NOT exclude `rating = 0` records — an unrated
record with a price appears in its output, carrying the pure-prior score
`C = 4`. -/
theorem C3_counterexample :
    statsValueRank [exRecUnrated] 4 100 0 100 2000 =
      [ValueRow.mk exRecUnrated 4 400] ∧
    exRecUnrated.rating = 0 := by
  refine ⟨?_, rfl⟩
  norm_num [statsValueRank, bayesianScore, sortValuesDesc, List.insertionSort,
    List.orderedInsert, exRecUnrated]

/-- Witness for `C3_rating_rank_excludes_unrated`: a rated record in the
rankings output indeed has positive rating. -/
theorem C3_rating_rank_excludes_unrated_witness :
    0 < (Scored.mk exRecNullPrice 4).meal.rating :=
  C3_rating_rank_excludes_unrated [exRecNullPrice] 4 100 [] [] (0, 2000) (0, 100)
    (Scored.mk exRecNullPrice 4)
    (by norm_num [mealRankings, filter_dataframe, bayesianScore, sortValuesDesc,
      List.insertionSort, List.orderedInsert, price_mask, exRecNullPrice])

/-- C4 (amended): for a non-empty cuisine filter the stage keeps a record
iff its raw `cuisines` string is non-null and SOME selected tag occurs as
a substring of it (OR semantics; the diet filter is the same test on
`specifications`).  Every exactly-matching parsed tag qualifies — parsed
tags are substrings of the raw string — but exact membership in the parsed
tag set is not required (see the counterexample). -/
theorem C4_or_filter_semantics {α : Type} (getR : α → MealRecord) (df : List α)
    (cf dfl : List String) (cr pr : ℚ × ℚ) (x : α) (hcf : cf ≠ []) :
    (x ∈ filter_dataframe getR df cf dfl cr pr ↔
      x ∈ df ∧ 0 < (getR x).rating ∧
      (∃ s, (getR x).cuisines = some s ∧ ∃ t ∈ cf, strContainsSub s t = true) ∧
      (dfl = [] ∨ seriesStrContains dfl (getR x).specifications = true) ∧
      cr.1 ≤ (getR x).calories ∧ (getR x).calories ≤ cr.2 ∧
      price_mask pr (getR x).price = true) ∧
    (∀ s t : String, t ∈ parseTags ',' s → strContainsSub s t = true) := by
  constructor
  · rw [mem_filter_dataframe]
    have hiff : (cf = [] ∨ seriesStrContains cf (getR x).cuisines = true) ↔
        (∃ s, (getR x).cuisines = some s ∧ ∃ t ∈ cf, strContainsSub s t = true) := by
      cases hop : (getR x).cuisines with
      | none => simp [seriesStrContains, hcf]
      | some s => simp [seriesStrContains, hcf, List.any_eq_true]
    rw [hiff]
  · exact fun s t => strContainsSub_of_parsed ',' s t

/-- Counterexample to C4 as stated: with selected tag `"Asian"`, a record
whose parsed cuisine tag set is `{"South Asian"}` — which does not contain
`"Asian"` — is nevertheless kept, because the `str.contains` test matches
substrings of the raw string. -/
theorem C4_counterexample :
    filter_dataframe id [exRecSouthAsian] ["Asian"] [] (0, 2000) (0, 100) =
      [exRecSouthAsian] ∧
    parseTags ',' "South Asian" = ["South Asian"] ∧
    "Asian" ∉ parseTags ',' "South Asian" := by
  refine ⟨by decide, by decide, by decide⟩

/-- Witness for `C4_or_filter_semantics`: the `"South Asian"` record is in
the filtered output for the selected tag `"Asian"`. -/
theorem C4_or_filter_semantics_witness :
    exRecSouthAsian ∈
      filter_dataframe id [exRecSouthAsian] ["Asian"] [] (0, 2000) (0, 100) :=
  ((C4_or_filter_semantics id [exRecSouthAsian] ["Asian"] [] (0, 2000) (0, 100)
      exRecSouthAsian (by decide)).1).mpr
    ⟨by decide, by decide, ⟨"South Asian", rfl, by decide⟩, Or.inl rfl,
      by decide, by decide, by decide⟩

/-- C5 (amended): at load time every missing `rating` and `review_count`
defaults to 0, and `price` is passed through unchanged — the realism-floor
normalization (`price < 7` to null) is a commented-out line of the source
and is not executed. -/
theorem C5_load_defaults (rows : List RawRow) :
    (load_data rows).map MealRecord.rating = rows.map (fun r => r.rating.getD 0) ∧
    (load_data rows).map MealRecord.review_count =
      rows.map (fun r => r.review_count.getD 0) ∧
    (load_data rows).map MealRecord.price = rows.map RawRow.price := by
  refine ⟨?_, ?_, ?_⟩ <;> simp [load_data]

/-- Counterexample to C5 as stated: a price of 5 — below the realism floor
of 7 — survives loading unchanged instead of being normalized to null. -/
theorem C5_counterexample :
    (load_data [exRawCheap]).map MealRecord.price = [some 5] ∧ (5 : ℚ) < 7 :=
  ⟨by decide, by decide⟩

/-- C6: a record with null price passes the price filter unconditionally:
the price mask accepts it for every range, and its membership in the
filtered output and its inclusion in the "Meal Rankings" output are each
characterized by the non-price stages alone — no price range occurs in
the condition, so no range ever excludes it.  The value ranking, in
contrast, excludes every null-price record. -/
theorem C6_null_price_handling (r : MealRecord) (hr : r.price = none)
    (tbl : List MealRecord) (cf dfl : List String) (cr pr : ℚ × ℚ) (C m : ℚ) :
    price_mask pr r.price = true ∧
    (r ∈ filter_dataframe id tbl cf dfl cr pr ↔
      r ∈ tbl ∧ 0 < r.rating ∧
      (cf = [] ∨ seriesStrContains cf r.cuisines = true) ∧
      (dfl = [] ∨ seriesStrContains dfl r.specifications = true) ∧
      cr.1 ≤ r.calories ∧ r.calories ≤ cr.2) ∧
    (Scored.mk r (bayesianScore r.rating r.review_count C m) ∈
        mealRankings tbl C m cf dfl cr pr ↔
      r ∈ tbl ∧ 0 < r.rating ∧
      (cf = [] ∨ seriesStrContains cf r.cuisines = true) ∧
      (dfl = [] ∨ seriesStrContains dfl r.specifications = true) ∧
      cr.1 ≤ r.calories ∧ r.calories ≤ cr.2) ∧
    ∀ (mr mp mc : ℚ) (y : ValueRow),
      y.meal.price = none → y ∉ statsValueRank tbl C m mr mp mc := by
  refine ⟨by rw [hr]; rfl, ?_, ?_, ?_⟩
  · rw [mem_filter_dataframe]
    simp [price_mask, hr]
  · rw [mem_mealRankings]
    simp only [price_mask, hr]
    constructor
    · rintro ⟨⟨rmem, hrm, heq⟩, h2, h3, h4, h5, h6, -⟩
      obtain ⟨rfl, -⟩ := Scored.mk.inj heq
      exact ⟨hrm, h2, h3, h4, h5, h6⟩
    · rintro ⟨h1, h2, h3, h4, h5, h6⟩
      exact ⟨⟨r, h1, rfl⟩, h2, h3, h4, h5, h6, trivial⟩
  · intro mr mp mc y hy hmem
    rcases (mem_statsValueRank tbl C m mr mp mc y).mp hmem with ⟨⟨s, _, hsome, rfl⟩, _⟩
    simp only at hy
    rw [hy] at hsome
    simp at hsome

/-- Witness for `C6_null_price_handling`, the spec's concrete scenario: a
null-price record under the price range `(10, 20)` is positively included
both in the filtered frame and in the rating-rank output. -/
theorem C6_null_price_handling_witness :
    exRecNullPrice ∈ filter_dataframe id [exRecNullPrice] [] [] (0, 2000) (10, 20) ∧
    Scored.mk exRecNullPrice
        (bayesianScore exRecNullPrice.rating exRecNullPrice.review_count 4 100) ∈
      mealRankings [exRecNullPrice] 4 100 [] [] (0, 2000) (10, 20) :=
  ⟨((C6_null_price_handling exRecNullPrice rfl [exRecNullPrice] [] [] (0, 2000)
        (10, 20) 4 100).2.1).mpr
      ⟨by decide, by decide, Or.inl rfl, Or.inl rfl, by decide, by decide⟩,
    ((C6_null_price_handling exRecNullPrice rfl [exRecNullPrice] [] [] (0, 2000)
        (10, 20) 4 100).2.2.1).mpr
      ⟨by decide, by decide, Or.inl rfl, Or.inl rfl, by decide, by decide⟩⟩

/-- Counterexample to C7 as stated: invalid parameters are not rejected —
there is no `ConfigurationError` path in the code.  `m = -2 ≤ 0` is
silently used by the score computation (producing `37/8`); an inverted
calorie range simply yields an empty frame; and an inverted price range
still returns the null-price rows, i.e. a partial computation IS
returned. -/
theorem C7_counterexample :
    calculate_bayesian_ratings [exRec0] 4 (-2) = [37/8] ∧
    filter_dataframe id [exRec0] [] [] (10, 5) (0, 100) = [] ∧
    filter_dataframe id [exRec0] [] [] (0, 2000) (20, 10) = [exRec0] := by
  refine ⟨?_, ?_, ?_⟩
  · norm_num [calculate_bayesian_ratings, bayesianScore, exRec0]
  · norm_num [filter_dataframe, exRec0]
  · norm_num [filter_dataframe, price_mask, exRec0]

/-- C7 (amended): the code performs no parameter validation.  The score
formula is applied whatever the value of `m` (no `m ≤ 0` rejection); an
inverted calorie range makes the filter return the empty frame rather
than raise; an inverted price range excludes exactly the non-null-price
rows (null prices still pass), again without an error. -/
theorem C7_no_validation :
    (∀ (df : List MealRecord) (C m : ℚ),
      calculate_bayesian_ratings df C m =
        df.map (fun r => (r.review_count * r.rating + m * C) / (r.review_count + m))) ∧
    (∀ {α : Type} (getR : α → MealRecord) (df : List α) (cf dfl : List String)
        (cr pr : ℚ × ℚ), cr.2 < cr.1 →
      filter_dataframe getR df cf dfl cr pr = []) ∧
    (∀ {α : Type} (getR : α → MealRecord) (df : List α) (cf dfl : List String)
        (cr pr : ℚ × ℚ) (x : α), pr.2 < pr.1 →
      x ∈ filter_dataframe getR df cf dfl cr pr → (getR x).price = none) := by
  refine ⟨fun df C m => rfl, ?_, ?_⟩
  · intro α getR df cf dfl cr pr h
    rw [List.eq_nil_iff_forall_not_mem]
    intro x hx
    rcases (mem_filter_dataframe getR df cf dfl cr pr x).mp hx with
      ⟨_, _, _, _, h1, h2, _⟩
    linarith
  · intro α getR df cf dfl cr pr x h hx
    rcases (mem_filter_dataframe getR df cf dfl cr pr x).mp hx with
      ⟨_, _, _, _, _, _, hp⟩
    cases hpo : (getR x).price with
    | none => rfl
    | some q =>
      rw [hpo] at hp
      simp only [price_mask, decide_eq_true_eq] at hp
      linarith [hp.1, hp.2]

/-- Witness for `C7_no_validation`: an inverted calorie range yields the
empty frame. -/
theorem C7_no_validation_witness :
    filter_dataframe id ([exRec0] : List MealRecord) [] [] (10, 5) (0, 100) = [] :=
  C7_no_validation.2.1 id [exRec0] [] [] (10, 5) (0, 100) (by norm_num)

/-- C8 (amended): every record in the value ranking has a non-null price,
its `bayesian_avg` is the Bayesian score of its record, its `value_score`
is `bayesian_avg / price * 1000`, and the output is sorted descending by
`value_score`.  There is however no defensive guard for `price ≤ 0`: a
zero-price record is kept and its score divides by zero (see the
counterexample; in the float implementation the score is `+inf`, in this
exact model `x / 0 = 0`). -/
theorem C8_value_rank_safety (df : List MealRecord) (C m mr mp mc : ℚ) :
    (∀ y ∈ statsValueRank df C m mr mp mc,
      y.meal.price ≠ none ∧
      y.bayesian_avg = bayesianScore y.meal.rating y.meal.review_count C m ∧
      ∀ p, y.meal.price = some p → y.value_score = y.bayesian_avg / p * 1000) ∧
    (statsValueRank df C m mr mp mc).Pairwise
      (fun a b => b.value_score ≤ a.value_score) := by
  constructor
  · intro y hy
    rcases (mem_statsValueRank df C m mr mp mc y).mp hy with ⟨⟨r, _, hsome, rfl⟩, _⟩
    refine ⟨?_, rfl, ?_⟩
    · intro hnone
      simp only at hnone
      rw [hnone] at hsome
      simp at hsome
    · intro p hp
      have hp' : r.price = some p := hp
      simp only [hp']
      simp
  · exact pairwise_sortValuesDesc _ _

/-- Counterexample to C8's guard: a `price = 0` record is neither rejected
nor skipped — it appears in the value-rank output. -/
theorem C8_counterexample :
    statsValueRank [exRecFree] 4 100 0 100 2000 = [ValueRow.mk exRecFree 4 0] ∧
    exRecFree.price = some 0 := by
  refine ⟨?_, rfl⟩
  norm_num [statsValueRank, bayesianScore, sortValuesDesc, List.insertionSort,
    List.orderedInsert, exRecFree]

/-- Witness for `C8_value_rank_safety` at a concrete one-record table. -/
theorem C8_value_rank_safety_witness :
    (ValueRow.mk exRecUnrated 4 400).meal.price ≠ none ∧
    (ValueRow.mk exRecUnrated 4 400).bayesian_avg =
      bayesianScore (ValueRow.mk exRecUnrated 4 400).meal.rating
        (ValueRow.mk exRecUnrated 4 400).meal.review_count 4 100 ∧
    ∀ p, (ValueRow.mk exRecUnrated 4 400).meal.price = some p →
      (ValueRow.mk exRecUnrated 4 400).value_score =
        (ValueRow.mk exRecUnrated 4 400).bayesian_avg / p * 1000 :=
  (C8_value_rank_safety [exRecUnrated] 4 100 0 100 2000).1
    (ValueRow.mk exRecUnrated 4 400)
    (by norm_num [statsValueRank, bayesianScore, sortValuesDesc,
      List.insertionSort, List.orderedInsert, exRecUnrated])

/-- C10: with a non-empty cuisine (resp. diet) filter, every record whose
`cuisines` (resp. `specifications`) field is null is excluded from the
filtered output; with both filter sets empty such records pass, subject
only to the rating, calorie and price stages. -/
theorem C10_null_tag_fields {α : Type} (getR : α → MealRecord) (df : List α)
    (cf dfl : List String) (cr pr : ℚ × ℚ) (x : α) :
    (cf ≠ [] → (getR x).cuisines = none →
      x ∉ filter_dataframe getR df cf dfl cr pr) ∧
    (dfl ≠ [] → (getR x).specifications = none →
      x ∉ filter_dataframe getR df cf dfl cr pr) ∧
    ((getR x).cuisines = none → (getR x).specifications = none →
      (x ∈ filter_dataframe getR df [] [] cr pr ↔
        x ∈ df ∧ 0 < (getR x).rating ∧ cr.1 ≤ (getR x).calories ∧
        (getR x).calories ≤ cr.2 ∧ price_mask pr (getR x).price = true)) := by
  refine ⟨?_, ?_, ?_⟩
  · intro hcf hnone hmem
    rcases (mem_filter_dataframe getR df cf dfl cr pr x).mp hmem with ⟨_, _, hcui, _⟩
    rcases hcui with h | h
    · exact hcf h
    · rw [hnone] at h
      simp [seriesStrContains] at h
  · intro hdfl hnone hmem
    rcases (mem_filter_dataframe getR df cf dfl cr pr x).mp hmem with
      ⟨_, _, _, hspec, _⟩
    rcases hspec with h | h
    · exact hdfl h
    · rw [hnone] at h
      simp [seriesStrContains] at h
  · intro _ _
    rw [mem_filter_dataframe]
    simp

/-- Witness for `C10_null_tag_fields`: a record with null `cuisines` is
dropped once a cuisine tag is selected. -/
theorem C10_null_tag_fields_witness :
    exRecNullPrice ∉ filter_dataframe id [exRecNullPrice] ["Thai"] [] (0, 2000) (0, 100) :=
  (C10_null_tag_fields id [exRecNullPrice] ["Thai"] [] (0, 2000) (0, 100)
      exRecNullPrice).1 (by decide) rfl
